import Mathlib

/-!
Verification of the DRSAC agent (SAC.py) against its design specification.

The development shallowly embeds the parts of SAC.py that the specification
talks about: the replay buffer, the squashed-Gaussian actor head, the reward
model, the robust dual optimization inside train(), the Bellman target, the
Polyak (soft) target update, and the action-range adapters.  Machine floats
are modelled by real numbers; the stochastic and autograd parts (Gaussian
noise draws, optimizer steps, network trunks) enter as explicit parameters,
so that every definition is a pure function of its inputs.
-/

namespace DRSAC

/-! ## Replay buffer (SAC.py, class ReplayBuffer, lines 118-144) -/

/-- One transition, bundling the five per-index fields that ReplayBuffer
stores in its five parallel arrays s, a, r, s_next, dw. -/
structure Transition (S A R : Type) where
  s : S
  a : A
  r : R
  s_next : S
  dw : Bool

/-- Embedding of ReplayBuffer: five pre-allocated parallel arrays (modelled
as functions on slot indices), a write cursor ptr and a logical size.
State, action and reward element types are kept abstract. -/
structure ReplayBuffer (S A R : Type) where
  max_size : ℕ
  ptr : ℕ
  size : ℕ
  s : ℕ → S
  a : ℕ → A
  r : ℕ → R
  s_next : ℕ → S
  dw : ℕ → Bool

/-- ReplayBuffer.__init__ : cursor and size start at 0; the arrays are
zero-initialized, modelled by constant functions at given default values. -/
def ReplayBuffer.init (S A R : Type) (s0 : S) (a0 : A) (r0 : R)
    (max_size : ℕ) : ReplayBuffer S A R :=
  { max_size := max_size
    ptr := 0
    size := 0
    s := fun _ => s0
    a := fun _ => a0
    r := fun _ => r0
    s_next := fun _ => s0
    dw := fun _ => false }

/-- ReplayBuffer.add (lines 131-140): write the transition at the cursor,
advance the cursor modulo max_size, increment size saturating at max_size. -/
def ReplayBuffer.add {S A R : Type} (buf : ReplayBuffer S A R)
    (t : Transition S A R) : ReplayBuffer S A R :=
  { max_size := buf.max_size
    ptr := (buf.ptr + 1) % buf.max_size
    size := min (buf.size + 1) buf.max_size
    s := Function.update buf.s buf.ptr t.s
    a := Function.update buf.a buf.ptr t.a
    r := Function.update buf.r buf.ptr t.r
    s_next := Function.update buf.s_next buf.ptr t.s_next
    dw := Function.update buf.dw buf.ptr t.dw }

/-- A whole sequence of add calls, oldest first. -/
def ReplayBuffer.addAll {S A R : Type} (buf : ReplayBuffer S A R)
    (ts : List (Transition S A R)) : ReplayBuffer S A R :=
  ts.foldl ReplayBuffer.add buf

/-- Read back the five parallel arrays at one slot as a bundled transition. -/
def ReplayBuffer.slot {S A R : Type} (buf : ReplayBuffer S A R) (j : ℕ) :
    Transition S A R :=
  ⟨buf.s j, buf.a j, buf.r j, buf.s_next j, buf.dw j⟩

/-- ReplayBuffer.sample (lines 142-144): torch.randint draws batch_size
random indices in the range [0, size) with replacement, and the five arrays
are all gathered at those same indices.  The random draw is modelled by the
explicit index map ind; membership in [0, size) is enforced by its type. -/
def ReplayBuffer.sample {S A R : Type} (buf : ReplayBuffer S A R)
    (batch_size : ℕ) (ind : Fin batch_size → Fin buf.size) :
    (Fin batch_size → S) × (Fin batch_size → A) × (Fin batch_size → R) ×
      (Fin batch_size → S) × (Fin batch_size → Bool) :=
  (fun j => buf.s (ind j), fun j => buf.a (ind j), fun j => buf.r (ind j),
    fun j => buf.s_next (ind j), fun j => buf.dw (ind j))

/-! ## Action adapters (SAC.py, lines 159-165) -/

/-- Action_adapter: from the agent range [-1,1] to the environment range
[-max_action, max_action], elementwise multiplication by max_action. -/
noncomputable def Action_adapter {d : ℕ} (a : Fin d → ℝ) (max_action : ℝ) :
    Fin d → ℝ :=
  fun i => a i * max_action

/-- Action_adapter_reverse: from [-max_action, max_action] back to [-1,1],
elementwise division by max_action. -/
noncomputable def Action_adapter_reverse {d : ℕ} (act : Fin d → ℝ)
    (max_action : ℝ) : Fin d → ℝ :=
  fun i => act i / max_action

/-! ## Actor head (SAC.py, class Actor, lines 25-58) -/

/-- torch.clamp(x, lo, hi). -/
noncomputable def clamp (x lo hi : ℝ) : ℝ := min (max x lo) hi

/-- F.softplus. -/
noncomputable def softplus (x : ℝ) : ℝ := Real.log (1 + Real.exp x)

/-- Log-density of a scalar Gaussian, as computed by
torch.distributions.Normal(mu, sigma).log_prob(x). -/
noncomputable def normalLogPdf (mu sigma x : ℝ) : ℝ :=
  -((x - mu) ^ 2) / (2 * sigma ^ 2) - Real.log sigma -
    Real.log (Real.sqrt (2 * Real.pi))

/-- The actor network heads: mu_layer and log_std_layer composed with the
shared trunk a_net, kept abstract as functions of the state. -/
structure ActorNet (S : Type) (d : ℕ) where
  mu : S → Fin d → ℝ
  log_std : S → Fin d → ℝ

/-- Actor.forward (lines 37-58): clamp the log-std to [-20, 2], take the
pre-squash sample u (the mean when deterministic, otherwise the
reparameterized sample mean + std * noise), squash by tanh, and when
with_logprob is requested return the summed log-density of u minus the
softplus-form tanh correction; otherwise the log-probability is None. -/
noncomputable def Actor.forward {S : Type} {d : ℕ} (net : ActorNet S d)
    (state : S) (deterministic with_logprob : Bool) (noise : Fin d → ℝ) :
    (Fin d → ℝ) × Option ℝ :=
  let mu := net.mu state
  let log_std := fun i => clamp (net.log_std state i) (-20) 2
  let std := fun i => Real.exp (log_std i)
  let u := if deterministic then mu else fun i => mu i + std i * noise i
  let a := fun i => Real.tanh (u i)
  let logp_pi_a : Option ℝ :=
    if with_logprob then
      some ((∑ i, normalLogPdf (mu i) (std i) (u i)) -
        ∑ i, 2 * (Real.log 2 - u i - softplus (-2 * u i)))
    else none
  (a, logp_pi_a)

/-- The pre-squash sample u of Actor.forward, written out separately so that
theorems can refer to it. -/
noncomputable def preSquash {S : Type} {d : ℕ} (net : ActorNet S d)
    (state : S) (deterministic : Bool) (noise : Fin d → ℝ) : Fin d → ℝ :=
  if deterministic then net.mu state
  else fun i =>
    net.mu state i + Real.exp (clamp (net.log_std state i) (-20) 2) * noise i

/-- SAC_countinuous.select_action (lines 222-227): call the actor with
with_logprob=False and return the action component. -/
noncomputable def select_action {S : Type} {d : ℕ} (net : ActorNet S d)
    (state : S) (deterministic : Bool) (noise : Fin d → ℝ) : Fin d → ℝ :=
  (Actor.forward net state deterministic false noise).1

/-! ## Reward model (SAC.py, class Reward, lines 74-116)

In the discrete branch of Reward.forward the source line
logits = self.r_layer[r_out] subscripts an nn.Linear module, which raises a
TypeError, and r is never assigned in that branch, so the trailing return r
would raise an UnboundLocalError; Reward.sample has no discrete branch at
all, so its return r raises an UnboundLocalError.  Both failures are
modelled by returning none. -/

/-- The reward network heads mu_layer and log_std_layer composed with the
trunk rnet, kept abstract, together with the reward-type tag rtype. -/
structure RewardNet (S A : Type) where
  rtype : String
  mu : S → A → ℝ
  log_std : S → A → ℝ

/-- Reward.forward (lines 86-103): in the continuous branch, an rsample from
Normal(mu, exp log_std), i.e. mu + std * noise; the discrete branch raises
before producing any value (modelled as none). -/
noncomputable def Reward.forward {S A : Type} (net : RewardNet S A)
    (s : S) (a : A) (noise : ℝ) : Option ℝ :=
  if net.rtype = "continuous" then
    some (net.mu s a + Real.exp (net.log_std s a) * noise)
  else
    none

/-- Reward.sample (lines 105-116): in the continuous branch, num rsamples per
batch element, each mu + std * noise_j; any other rtype reaches return r
with r unbound (modelled as none). -/
noncomputable def Reward.sample {S A : Type} (net : RewardNet S A)
    (s : S) (a : A) (num : ℕ) (noise : Fin num → ℝ) :
    Option (Fin num → ℝ) :=
  if net.rtype = "continuous" then
    some (fun j => net.mu s a + Real.exp (net.log_std s a) * noise j)
  else
    none

/-- A concrete discrete-type reward net, exercising the failing branch. -/
noncomputable def discreteRewardNet : RewardNet ℕ ℕ :=
  ⟨"discrete", fun _ _ => 0, fun _ _ => 0⟩

/-! ## Robust radius delta (SAC.py, SAC_countinuous.__init__, lines 184-189) -/

/-- delta = 0.5 * (eval_var / train_var + log(train_var / eval_var) - 1)
with train_var = train_std ** 2 and eval_var = eval_std ** 2. -/
noncomputable def deltaOf (train_std eval_std : ℝ) : ℝ :=
  let train_var := train_std ^ 2
  let eval_var := eval_std ^ 2
  0.5 * (eval_var / train_var + Real.log (train_var / eval_var) - 1)

/-- The robust part of construction: compute delta once and assert
delta >= 0; a negative delta aborts construction (modelled as none). -/
noncomputable def robustInitDelta (train_std eval_std : ℝ) : Option ℝ :=
  if 0 ≤ deltaOf train_std eval_std then some (deltaOf train_std eval_std)
  else none

/-! ## train() data flow (SAC.py, SAC_countinuous.train, lines 229-310) -/

/-- self.tau, fixed at construction (line 190). -/
noncomputable def tau : ℝ := 0.005

/-- Multiplication of a bool tensor entry by a float tensor coerces the bool
to 0 or 1; this models that coercion. -/
noncomputable def boolToReal (b : Bool) : ℝ := if b then 1 else 0

/-- torch.logsumexp along the sample axis, for one batch row. -/
noncomputable def logsumexp {n : ℕ} (x : Fin n → ℝ) : ℝ :=
  Real.log (∑ j, Real.exp (x j))

/-- dual_func (lines 242-244), for one batch row of the sampled reward
matrix: - beta * (logsumexp(-r/beta) - log(size)) - beta * delta, where
size = n is the number of reward samples per batch element. -/
noncomputable def dual_func {n : ℕ} (delta : ℝ) (r : Fin n → ℝ)
    (beta : ℝ) : ℝ :=
  -beta * (logsumexp (fun j => -r j / beta) - Real.log (n : ℝ)) - beta * delta

/-- The specification formula for the dual objective, written directly from
the words of the spec: g(beta) = -beta * (logsumexp(-R/beta) - ln(n)) -
beta * delta. -/
noncomputable def dualObjective {n : ℕ} (R : Fin n → ℝ) (beta delta : ℝ) :
    ℝ :=
  -beta * (Real.log (∑ j, Real.exp (-R j / beta)) - Real.log (n : ℝ)) -
    beta * delta

/-- One sampled batch, as returned by replay_buffer.sample at line 230. -/
structure Batch (S A : Type) (B : ℕ) where
  s : Fin B → S
  a : Fin B → A
  r : Fin B → ℝ
  s_next : Fin B → S
  dw : Fin B → Bool

/-- The stochastic and autograd-driven collaborators of one train() call,
passed explicitly: the sampled batch, the matrix drawn by
reward.sample(s, a, 50) after the reward-net regression step, one
beta_optimizer (Adam) step acting on its internal state (type W) and the
dual variable, the actor forward pass at a next state (action sample and
its log-probability), the target twin critic, and the effect of the critic
gradient step, which reads the Bellman targets, on the critic parameters
(flattened to m reals). -/
structure TrainOracles (S A : Type) (B n m : ℕ) (W : Type) where
  batch : Batch S A B
  rewardSample : Fin B → Fin n → ℝ
  betaStep : W × (Fin B → ℝ) → W × (Fin B → ℝ)
  actorFwd : S → A × ℝ
  qTarget : S → A → ℝ × ℝ
  criticUpdate : (Fin B → ℝ) → (Fin m → ℝ) → (Fin m → ℝ)

/-- The values train() computes that the specification talks about. -/
structure TrainResult (B m : ℕ) where
  betaStar : Option (Fin B → ℝ)
  r_opt : Option (Fin B → ℝ)
  target_Q : Fin B → ℝ
  q_critic : Fin m → ℝ
  q_critic_target : Fin m → ℝ

/-- SAC_countinuous.train (lines 229-310), restricted to the data flow the
specification describes.  In robust mode the dual variable is updated by
exactly 10 optimizer steps (the for-loop at lines 246-251) and r_opt is
dual_func evaluated at exp(beta) (line 253); the Bellman target (lines
256-265) uses r_opt in robust mode and the raw sampled reward otherwise,
with the bootstrap term masked by the negated done flag; the critic takes
one gradient step against those targets; and the target critic parameters
are overwritten by the Polyak rule tau * online + (1 - tau) * target
(lines 309-310). -/
noncomputable def SACtrain {S A : Type} {B n m : ℕ} {W : Type}
    (robust : Bool) (delta gamma alpha : ℝ) (w0 : W) (beta0 : Fin B → ℝ)
    (q_critic q_critic_target : Fin m → ℝ)
    (o : TrainOracles S A B n m W) : TrainResult B m :=
  let robustPass : Option ((Fin B → ℝ) × (Fin B → ℝ)) :=
    if robust then
      let betaStar := (o.betaStep^[10] (w0, beta0)).2
      some (betaStar,
        fun b => dual_func delta (o.rewardSample b) (Real.exp (betaStar b)))
    else none
  let target_Q : Fin B → ℝ := fun b =>
    let a_next := (o.actorFwd (o.batch.s_next b)).1
    let log_pi_a_next := (o.actorFwd (o.batch.s_next b)).2
    let tQ := min (o.qTarget (o.batch.s_next b) a_next).1
      (o.qTarget (o.batch.s_next b) a_next).2
    match robustPass with
    | some p =>
        p.2 b + boolToReal (!o.batch.dw b) * gamma *
          (tQ - alpha * log_pi_a_next)
    | none =>
        o.batch.r b + boolToReal (!o.batch.dw b) * gamma *
          (tQ - alpha * log_pi_a_next)
  let q_critic_new := o.criticUpdate target_Q q_critic
  { betaStar := robustPass.map Prod.fst
    r_opt := robustPass.map Prod.snd
    target_Q := target_Q
    q_critic := q_critic_new
    q_critic_target := fun i =>
      tau * q_critic_new i + (1 - tau) * q_critic_target i }

/-- The soft (Polyak) update rule as the specification words it:
target = tau * online + (1 - tau) * target for every parameter. -/
noncomputable def softUpdate {m : ℕ} (t : ℝ) (online target : Fin m → ℝ) :
    Fin m → ℝ :=
  fun i => t * online i + (1 - t) * target i

/-- A trivial concrete oracle set, used to instantiate theorems about
train() at a concrete input. -/
noncomputable def trivOracles : TrainOracles ℕ ℕ 1 1 1 Unit :=
  { batch :=
      ⟨fun _ => 0, fun _ => 0, fun _ => 0, fun _ => 0, fun _ => true⟩
    rewardSample := fun _ _ => 0
    betaStep := id
    actorFwd := fun _ => (0, 0)
    qTarget := fun _ _ => (0, 0)
    criticUpdate := fun _ q => q }

/-- Concrete insertion sequence of length capacity + 1 for capacity 2,
exercising buffer wraparound at a concrete input. -/
def wraparoundInput : List (Transition ℕ ℕ ℕ) :=
  [⟨1, 1, 1, 1, false⟩, ⟨2, 2, 2, 2, false⟩, ⟨3, 3, 3, 3, true⟩]

/-! ## Replay buffer lemmas -/

theorem ReplayBuffer.addAll_append {S A R : Type} (buf : ReplayBuffer S A R)
    (ts : List (Transition S A R)) (t : Transition S A R) :
    buf.addAll (ts ++ [t]) = (buf.addAll ts).add t := by
  simp [ReplayBuffer.addAll]

theorem ReplayBuffer.max_size_addAll {S A R : Type}
    (ts : List (Transition S A R)) : ∀ buf : ReplayBuffer S A R,
    (buf.addAll ts).max_size = buf.max_size := by
  induction ts with
  | nil => intro buf; rfl
  | cons t ts ih =>
    intro buf
    simpa [ReplayBuffer.addAll] using ih (buf.add t)

theorem ReplayBuffer.size_addAll {S A R : Type}
    (ts : List (Transition S A R)) : ∀ buf : ReplayBuffer S A R,
    buf.size ≤ buf.max_size →
      (buf.addAll ts).size = min (buf.size + ts.length) buf.max_size := by
  induction ts with
  | nil =>
    intro buf h
    simp only [ReplayBuffer.addAll, List.foldl_nil, List.length_nil]
    omega
  | cons t ts ih =>
    intro buf h
    have hstep := ih (buf.add t) (by simp [ReplayBuffer.add])
    simp only [ReplayBuffer.addAll, List.foldl_cons] at hstep ⊢
    rw [hstep]
    simp only [ReplayBuffer.add, List.length_cons]
    omega

theorem ReplayBuffer.ptr_addAll {S A R : Type}
    (ts : List (Transition S A R)) : ∀ buf : ReplayBuffer S A R,
    buf.ptr % buf.max_size = buf.ptr →
      (buf.addAll ts).ptr = (buf.ptr + ts.length) % buf.max_size := by
  induction ts with
  | nil =>
    intro buf h
    simpa [ReplayBuffer.addAll] using h.symm
  | cons t ts ih =>
    intro buf h
    have hstep := ih (buf.add t)
      (by simp [ReplayBuffer.add, Nat.mod_mod_of_dvd _ (dvd_refl _)])
    simp only [ReplayBuffer.addAll, List.foldl_cons] at hstep ⊢
    rw [hstep]
    simp only [ReplayBuffer.add, List.length_cons]
    rw [Nat.mod_add_mod]
    congr 1
    omega

theorem ReplayBuffer.slot_add_self {S A R : Type} (buf : ReplayBuffer S A R)
    (t : Transition S A R) : (buf.add t).slot buf.ptr = t := by
  cases t
  simp [ReplayBuffer.add, ReplayBuffer.slot]

theorem ReplayBuffer.slot_add_ne {S A R : Type} (buf : ReplayBuffer S A R)
    (t : Transition S A R) (j : ℕ) (h : j ≠ buf.ptr) :
    (buf.add t).slot j = buf.slot j := by
  simp [ReplayBuffer.add, ReplayBuffer.slot, Function.update_noteq h]

theorem ReplayBuffer.slot_addAll_recent {S A R : Type} (s0 : S) (a0 : A)
    (r0 : R) {C : ℕ} (ts : List (Transition S A R)) :
    ∀ i (hi : i < ts.length), ts.length - C ≤ i →
      ((ReplayBuffer.init S A R s0 a0 r0 C).addAll ts).slot (i % C) = ts[i] := by
  induction ts using List.reverseRecOn with
  | nil =>
    intro i hi
    exact absurd hi (by simp)
  | append_singleton ts t ih =>
    intro i hi hrec
    rw [ReplayBuffer.addAll_append]
    have hptr : ((ReplayBuffer.init S A R s0 a0 r0 C).addAll ts).ptr =
        ts.length % C := by
      rw [ReplayBuffer.ptr_addAll ts _ (by simp [ReplayBuffer.init])]
      simp [ReplayBuffer.init]
    have hi2 : i < ts.length + 1 := by simpa using hi
    rcases Nat.lt_succ_iff_lt_or_eq.mp hi2 with hlt | heq
    · have hrec2 : ts.length + 1 - C ≤ i := by
        simpa using hrec
      have hne : i % C ≠ ts.length % C := by
        intro hmod
        have hdvd : (C : ℤ) ∣ (ts.length : ℤ) - (i : ℤ) :=
          Nat.modEq_iff_dvd.mp hmod
        have hle : (C : ℤ) ≤ (ts.length : ℤ) - (i : ℤ) :=
          Int.le_of_dvd (by omega) hdvd
        omega
      rw [ReplayBuffer.slot_add_ne _ _ _ (by rw [hptr]; exact hne)]
      rw [ih i hlt (by omega)]
      exact (List.getElem_append_left hlt).symm
    · subst heq
      rw [← hptr, ReplayBuffer.slot_add_self]
      exact (List.getElem_concat_length ts t ts.length rfl _).symm

/-! ## Claim theorems -/

/-- Claim C5: for every sequence of add calls on a buffer of capacity C,
size stays at most C and saturates at C, the write cursor advances modulo
C, and after C + k insertions (k positive) the size is exactly C and each
of the most recent C insertions is stored, the insertion numbered i at slot
i mod C, the oldest having been overwritten first. -/
theorem replayBuffer_wraparound {S A R : Type} (s0 : S) (a0 : A) (r0 : R)
    (C k : ℕ) (ts : List (Transition S A R))
    (_hC : 0 < C) (hk : 0 < k) (hlen : ts.length = C + k) :
    (∀ us : List (Transition S A R),
        ((ReplayBuffer.init S A R s0 a0 r0 C).addAll us).size ≤ C) ∧
    (∀ (buf : ReplayBuffer S A R) (t : Transition S A R),
        (buf.add t).ptr = (buf.ptr + 1) % buf.max_size) ∧
    ((ReplayBuffer.init S A R s0 a0 r0 C).addAll ts).size = C ∧
    (∀ i (hi : i < ts.length), ts.length - C ≤ i →
        ((ReplayBuffer.init S A R s0 a0 r0 C).addAll ts).slot (i % C) =
          ts[i]) := by
  refine ⟨?_, fun buf t => rfl, ?_, ?_⟩
  · intro us
    rw [ReplayBuffer.size_addAll us _ (by simp [ReplayBuffer.init])]
    simp [ReplayBuffer.init]
  · rw [ReplayBuffer.size_addAll ts _ (by simp [ReplayBuffer.init])]
    simp [ReplayBuffer.init]
    omega
  · exact ReplayBuffer.slot_addAll_recent s0 a0 r0 ts

/-- Witness for C5 at capacity 2 and three insertions: the buffer is full at
size 2 and slot 0 holds the third insertion, which overwrote the first. -/
theorem replayBuffer_wraparound_witness :
    ((ReplayBuffer.init ℕ ℕ ℕ 0 0 0 2).addAll wraparoundInput).size = 2 ∧
    ((ReplayBuffer.init ℕ ℕ ℕ 0 0 0 2).addAll wraparoundInput).slot (2 % 2) =
      ⟨3, 3, 3, 3, true⟩ :=
  ⟨(replayBuffer_wraparound 0 0 0 2 1 wraparoundInput (by decide) (by decide)
      (by decide)).2.2.1,
    ((replayBuffer_wraparound 0 0 0 2 1 wraparoundInput (by decide)
      (by decide) (by decide)).2.2.2 2 (by decide) (by decide)).trans rfl⟩

/-- Claim C7: sample gathers the five parallel arrays at one shared random
index per batch position, each index lying in [0, size); with an empty
buffer no index draw exists, so sampling is an error. -/
theorem replayBuffer_sample_spec {S A R : Type} (buf : ReplayBuffer S A R)
    (batch_size : ℕ) :
    (∀ (ind : Fin batch_size → Fin buf.size) (j : Fin batch_size),
        (ind j : ℕ) < buf.size ∧
        (buf.sample batch_size ind).1 j = buf.s (ind j) ∧
        (buf.sample batch_size ind).2.1 j = buf.a (ind j) ∧
        (buf.sample batch_size ind).2.2.1 j = buf.r (ind j) ∧
        (buf.sample batch_size ind).2.2.2.1 j = buf.s_next (ind j) ∧
        (buf.sample batch_size ind).2.2.2.2 j = buf.dw (ind j)) ∧
    (buf.size = 0 → 0 < batch_size →
        IsEmpty (Fin batch_size → Fin buf.size)) := by
  refine ⟨fun ind j => ⟨(ind j).2, rfl, rfl, rfl, rfl, rfl⟩, fun h hb => ?_⟩
  exact ⟨fun f => Fin.elim0 (h ▸ f ⟨0, hb⟩)⟩

/-- Witness for C7: a freshly initialized buffer has size 0 and admits no
index draw for a batch of one. -/
theorem replayBuffer_sample_witness :
    IsEmpty (Fin 1 → Fin (ReplayBuffer.init ℕ ℕ ℕ 0 0 0 5).size) :=
  (replayBuffer_sample_spec (ReplayBuffer.init ℕ ℕ ℕ 0 0 0 5) 1).2 rfl
    (by decide)

/-- Claim C8: the linear action scaling and its inverse form a round trip
for every positive max_action. -/
theorem action_adapter_round_trip {d : ℕ} (a : Fin d → ℝ) (max_action : ℝ)
    (h : 0 < max_action) :
    Action_adapter_reverse (Action_adapter a max_action) max_action = a := by
  funext i
  simp only [Action_adapter, Action_adapter_reverse]
  exact mul_div_cancel_right₀ (a i) (ne_of_gt h)

/-- Witness for C8 at a = 3 and max_action = 2. -/
theorem action_adapter_round_trip_witness :
    (0 : ℝ) < 2 ∧
    Action_adapter_reverse (Action_adapter (fun _ : Fin 1 => (3 : ℝ)) 2) 2 =
      fun _ => 3 :=
  ⟨by norm_num, action_adapter_round_trip (fun _ => 3) 2 (by norm_num)⟩

/-! ## The softplus form of the tanh log-density correction -/

theorem log_cosh_eq (x : ℝ) :
    Real.log (Real.cosh x) = x + softplus (-2 * x) - Real.log 2 := by
  have hpos : (0 : ℝ) < 1 + Real.exp (-2 * x) := by positivity
  have hrw : Real.exp x + Real.exp (-x) =
      Real.exp x * (1 + Real.exp (-2 * x)) := by
    rw [mul_add, mul_one, ← Real.exp_add]
    ring_nf
  rw [Real.cosh_eq, hrw, Real.log_div (by positivity) (by norm_num),
    Real.log_mul (Real.exp_ne_zero x) (ne_of_gt hpos), Real.log_exp,
    softplus]

theorem one_sub_tanh_sq (x : ℝ) :
    1 - Real.tanh x ^ 2 = (Real.cosh x ^ 2)⁻¹ := by
  have hc : (0 : ℝ) < Real.cosh x := Real.cosh_pos x
  rw [Real.tanh_eq_sinh_div_cosh, div_pow]
  field_simp

theorem softplus_tanh_identity (x : ℝ) :
    2 * (Real.log 2 - x - softplus (-2 * x)) =
      Real.log (1 - Real.tanh x ^ 2) := by
  have hc : (0 : ℝ) < Real.cosh x := Real.cosh_pos x
  have h2 : Real.log (1 - Real.tanh x ^ 2) =
      -(2 * Real.log (Real.cosh x)) := by
    rw [one_sub_tanh_sq, Real.log_inv, Real.log_pow]
    push_cast
    ring
  rw [h2, log_cosh_eq]
  ring

/-- Claim C3: with with_logprob requested the actor returns the per
dimension sum of the Gaussian log-density of the pre-squash sample minus
the softplus correction 2 * (ln 2 - u - softplus(-2u)); that correction
equals the change-of-variables term log(1 - tanh(u)^2); and without
with_logprob the log-probability is omitted (none). -/
theorem actor_logprob_spec {S : Type} {d : ℕ} (net : ActorNet S d)
    (state : S) (deterministic : Bool) (noise : Fin d → ℝ) :
    (Actor.forward net state deterministic true noise).2 =
      some ((∑ i, normalLogPdf (net.mu state i)
          (Real.exp (clamp (net.log_std state i) (-20) 2))
          (preSquash net state deterministic noise i)) -
        ∑ i, 2 * (Real.log 2 - preSquash net state deterministic noise i -
          softplus (-2 * preSquash net state deterministic noise i))) ∧
    (Actor.forward net state deterministic false noise).2 = none ∧
    (∀ x : ℝ, 2 * (Real.log 2 - x - softplus (-2 * x)) =
        Real.log (1 - Real.tanh x ^ 2)) := by
  refine ⟨?_, rfl, softplus_tanh_identity⟩
  cases deterministic <;> simp [Actor.forward, preSquash]

/-- Claim C9: with deterministic set, the pre-squash sample of
Actor.forward is exactly the computed mean and the action is tanh of the
mean, both independent of the noise draw, hence two select_action calls at
the same state under the same parameters agree. -/
theorem deterministic_action_spec {S : Type} {d : ℕ} (net : ActorNet S d)
    (state : S) (with_logprob : Bool) (noise noise2 : Fin d → ℝ) :
    preSquash net state true noise = net.mu state ∧
    (Actor.forward net state true with_logprob noise).1 =
      (fun i => Real.tanh (net.mu state i)) ∧
    select_action net state true noise =
      select_action net state true noise2 :=
  ⟨rfl, rfl, rfl⟩

/-! ## Robust radius delta -/

/-- Counterexample to C4 as stated: train_std = 1 and eval_std = -1 give
positive variances and eval_std differs from train_std, yet delta is 0 and
not strictly positive, because the two variances coincide. -/
theorem robust_delta_counterexample :
    ((-1 : ℝ) ≠ 1) ∧ (0 : ℝ) < (1 : ℝ) ^ 2 ∧ (0 : ℝ) < ((-1 : ℝ)) ^ 2 ∧
    deltaOf 1 (-1) = 0 ∧ ¬ 0 < deltaOf 1 (-1) := by
  have h : deltaOf 1 (-1) = 0 := by simp [deltaOf]
  refine ⟨by norm_num, by norm_num, by norm_num, h, ?_⟩
  rw [h]
  norm_num

/-- Claim C4, amended to require positive standard deviations rather than
only positive variances: delta is the value 0.5 * (eval_var / train_var +
ln(train_var / eval_var) - 1); equal standard deviations give delta = 0;
distinct positive standard deviations give delta strictly positive, so
construction succeeds; and a negative delta aborts construction. -/
theorem robust_delta_spec (train_std eval_std : ℝ) (ht : 0 < train_std)
    (he : 0 < eval_std) :
    (train_std = eval_std → deltaOf train_std eval_std = 0) ∧
    (eval_std ≠ train_std → 0 < deltaOf train_std eval_std) ∧
    robustInitDelta train_std eval_std =
      some (deltaOf train_std eval_std) ∧
    (∀ t e : ℝ, deltaOf t e < 0 → robustInitDelta t e = none) := by
  have htv : (0 : ℝ) < train_std ^ 2 := by positivity
  have hev : (0 : ℝ) < eval_std ^ 2 := by positivity
  have hzero : train_std = eval_std → deltaOf train_std eval_std = 0 := by
    intro h
    subst h
    simp [deltaOf, div_self (ne_of_gt htv)]
  have hpos : eval_std ≠ train_std → 0 < deltaOf train_std eval_std := by
    intro hne
    have hxne : eval_std ^ 2 / train_std ^ 2 ≠ 1 := by
      intro h1
      apply hne
      field_simp at h1
      exact h1
    have hlog := Real.log_lt_sub_one_of_pos (div_pos hev htv) hxne
    have hflip : Real.log (train_std ^ 2 / eval_std ^ 2) =
        -Real.log (eval_std ^ 2 / train_std ^ 2) := by
      rw [show train_std ^ 2 / eval_std ^ 2 =
          (eval_std ^ 2 / train_std ^ 2)⁻¹ from by rw [inv_div],
        Real.log_inv]
    show 0 < 0.5 * (eval_std ^ 2 / train_std ^ 2 +
      Real.log (train_std ^ 2 / eval_std ^ 2) - 1)
    rw [hflip]
    linarith
  have hnn : 0 ≤ deltaOf train_std eval_std := by
    by_cases heq : eval_std = train_std
    · exact le_of_eq (hzero heq.symm).symm
    · exact le_of_lt (hpos heq)
  refine ⟨hzero, hpos, by simp [robustInitDelta, hnn], fun t e h => ?_⟩
  simp [robustInitDelta, not_le.mpr h]

/-- Witness for C4 at train_std = 1 and eval_std = 2. -/
theorem robust_delta_witness : 0 < deltaOf 1 2 :=
  (robust_delta_spec 1 2 (by norm_num) (by norm_num)).2.1 (by norm_num)

/-! ## Reward model failure on the discrete branch -/

/-- Claim C10: any reward type other than continuous makes both
Reward.forward and Reward.sample fail rather than produce a value. -/
theorem reward_discrete_branch_fails {S A : Type} (net : RewardNet S A)
    (h : net.rtype ≠ "continuous") (s : S) (a : A) (noise : ℝ) (num : ℕ)
    (noiseM : Fin num → ℝ) :
    Reward.forward net s a noise = none ∧
    Reward.sample net s a num noiseM = none := by
  constructor <;> simp [Reward.forward, Reward.sample, h]

/-- Witness for C10 at the concrete discrete-type reward net. -/
theorem reward_discrete_branch_witness :
    Reward.forward discreteRewardNet 0 0 0 = none ∧
    Reward.sample discreteRewardNet 0 0 1 (fun _ => 0) = none :=
  reward_discrete_branch_fails discreteRewardNet (by decide) 0 0 0 1
    (fun _ => 0)

/-! ## The train() data flow claims -/

/-- Claim C1: in robust mode, train evaluates per batch element the dual
objective g(beta) = -beta * (logsumexp(-R/beta) - ln n) - beta * delta on
the sampled reward matrix, at beta obtained by exponentiating the
unconstrained dual variable produced by exactly 10 optimizer steps, and
substitutes g at the optimized beta for the raw reward in the Bellman
target. -/
theorem robust_dual_spec {S A : Type} {B n m : ℕ} {W : Type}
    (delta gamma alpha : ℝ) (w0 : W) (beta0 : Fin B → ℝ)
    (qc qt : Fin m → ℝ) (o : TrainOracles S A B n m W) :
    (SACtrain true delta gamma alpha w0 beta0 qc qt o).r_opt =
      some (fun b =>
        dualObjective (o.rewardSample b)
          (Real.exp ((o.betaStep^[10] (w0, beta0)).2 b)) delta) ∧
    (∀ b, (SACtrain true delta gamma alpha w0 beta0 qc qt o).target_Q b =
      dualObjective (o.rewardSample b)
          (Real.exp ((o.betaStep^[10] (w0, beta0)).2 b)) delta +
        boolToReal (!o.batch.dw b) * gamma *
          (min (o.qTarget (o.batch.s_next b)
              (o.actorFwd (o.batch.s_next b)).1).1
            (o.qTarget (o.batch.s_next b)
              (o.actorFwd (o.batch.s_next b)).1).2 -
            alpha * (o.actorFwd (o.batch.s_next b)).2)) := by
  constructor
  · simp [SACtrain, dual_func, dualObjective, logsumexp]
  · intro b
    simp [SACtrain, dual_func, dualObjective, logsumexp]

/-- Claim C2: in every train call the Bellman target per batch element is
r_used + (1 - done) * gamma * (min of the twin target critics at the next
state and an action drawn from the current policy there, minus alpha times
the log-probability of that action), with r_used the robust dual estimate
in robust mode and the raw sampled reward otherwise; a set done flag zeroes
the bootstrap term exactly. -/
theorem bellman_target_spec {S A : Type} {B n m : ℕ} {W : Type}
    (robust : Bool) (delta gamma alpha : ℝ) (w0 : W) (beta0 : Fin B → ℝ)
    (qc qt : Fin m → ℝ) (o : TrainOracles S A B n m W) (b : Fin B) :
    ((SACtrain robust delta gamma alpha w0 beta0 qc qt o).target_Q b =
      (if robust then
          dual_func delta (o.rewardSample b)
            (Real.exp ((o.betaStep^[10] (w0, beta0)).2 b))
        else o.batch.r b) +
        (1 - boolToReal (o.batch.dw b)) * gamma *
          (min (o.qTarget (o.batch.s_next b)
              (o.actorFwd (o.batch.s_next b)).1).1
            (o.qTarget (o.batch.s_next b)
              (o.actorFwd (o.batch.s_next b)).1).2 -
            alpha * (o.actorFwd (o.batch.s_next b)).2)) ∧
    (o.batch.dw b = true →
      (SACtrain robust delta gamma alpha w0 beta0 qc qt o).target_Q b =
        (if robust then
            dual_func delta (o.rewardSample b)
              (Real.exp ((o.betaStep^[10] (w0, beta0)).2 b))
          else o.batch.r b)) := by
  have hb : ∀ c : Bool, boolToReal (!c) = 1 - boolToReal c := by
    intro c
    cases c <;> simp [boolToReal]
  constructor
  · cases robust <;> simp [SACtrain, hb]
  · intro hdw
    cases robust <;> simp [SACtrain, hdw, boolToReal]

/-- Witness for C2: with the trivial oracles, whose batch has the done flag
set, the non-robust target collapses to the raw sampled reward. -/
theorem bellman_target_witness :
    (SACtrain false 0 0 0 () (fun _ => 0) (fun _ => (0 : ℝ))
        (fun _ => (0 : ℝ)) trivOracles).target_Q 0 =
      trivOracles.batch.r 0 := by
  have h := (bellman_target_spec false 0 0 0 () (fun _ => 0)
    (fun _ => (0 : ℝ)) (fun _ => (0 : ℝ)) trivOracles 0).2 rfl
  simpa using h

/-! ## Soft target update -/

theorem softUpdate_sub (t : ℝ) {mm : ℕ} (online x : Fin mm → ℝ) :
    softUpdate t online x - online = (1 - t) • (x - online) := by
  funext i
  simp [softUpdate]
  ring

theorem softUpdate_iterate (t : ℝ) {mm : ℕ} (online x0 : Fin mm → ℝ)
    (k : ℕ) :
    (softUpdate t online)^[k] x0 - online = (1 - t) ^ k • (x0 - online) := by
  induction k with
  | zero => simp
  | succ k ih =>
    rw [Function.iterate_succ_apply', softUpdate_sub, ih, smul_smul,
      pow_succ]
    congr 1
    ring

/-- Claim C6: the target critic parameters produced by train are exactly
the soft update tau * online + (1 - tau) * target of the old target with
the freshly updated online critic, with tau fixed at 0.005, and iterating
the rule with the online parameters held fixed contracts the distance to
them by a factor 1 - tau per application. -/
theorem target_soft_update_spec {S A : Type} {B n m : ℕ} {W : Type}
    (robust : Bool) (delta gamma alpha : ℝ) (w0 : W) (beta0 : Fin B → ℝ)
    (qc qt : Fin m → ℝ) (o : TrainOracles S A B n m W) :
    (SACtrain robust delta gamma alpha w0 beta0 qc qt o).q_critic_target =
      softUpdate tau
        ((SACtrain robust delta gamma alpha w0 beta0 qc qt o).q_critic)
        qt ∧
    tau = 0.005 ∧
    (∀ (mm k : ℕ) (online x0 : Fin mm → ℝ),
      ‖(softUpdate tau online)^[k] x0 - online‖ ≤
        (1 - tau) ^ k * ‖x0 - online‖) := by
  refine ⟨rfl, rfl, ?_⟩
  intro mm k online x0
  rw [softUpdate_iterate, norm_smul]
  have h : ‖(1 - tau) ^ k‖ = (1 - tau) ^ k := by
    rw [Real.norm_eq_abs, abs_pow]
    congr 1
    rw [abs_of_nonneg (by norm_num [tau])]
  rw [h]

end DRSAC
